import Mathlib

/-!
Shallow embedding of `vtkHyperTreeGridEntry`
(Common/DataModel/vtkHyperTreeGridEntry.h) together with spec-level models
of its external collaborators (the HyperTree handle and the HyperTreeGrid
container), over which the entry methods declared but not defined in the
header are modelled.
-/

/-- The entry caches only the current cell index in one HyperTree:
field `Index` of type `vtkIdType`, modelled as `Int`. -/
structure vtkHyperTreeGridEntry where
  Index : Int

/-- Modelled from the spec: the external Tree handle contract (`vtkHyperTree`
is not under `src/`). A cell with local index `k` is stored at position `k`
of `cells`: `none` marks a leaf, `some e` marks a coarse cell whose children
occupy the consecutive local indices `e, e+1, ..., e+branchingFactor-1`
(elder-child layout, an instance of the spec's opaque per-tree layout).
`globalIndices` holds the registered global index of each cell (`none` when
not yet assigned) and `globalIndexStart` the seed installed by
`SetGlobalIndexStart`. `branchingFactor` is the fixed number of children
created by each subdivision. -/
structure vtkHyperTree where
  branchingFactor : Nat
  cells : List (Option Nat)
  globalIndices : List (Option Int)
  globalIndexStart : Int

/-- Modelled from the spec: per-cell state lookup of the Tree handle; `none`
when the local index addresses no allocated cell (negative or out of range). -/
def vtkHyperTree.cellAt (t : vtkHyperTree) (i : Int) : Option (Option Nat) :=
  if i < 0 then none else t.cells[i.toNat]?

/-- Modelled from the spec: the Tree handle's leaf test by local index. -/
def vtkHyperTree.isLeafAt (t : vtkHyperTree) (i : Int) : Bool :=
  match t.cellAt i with
  | some none => true
  | _ => false

/-- Modelled from the spec: the Tree handle's coarse test by local index
(a cell is a leaf or coarse, never both). -/
def vtkHyperTree.isCoarseAt (t : vtkHyperTree) (i : Int) : Bool :=
  match t.cellAt i with
  | some (some _) => true
  | _ => false

/-- Modelled from the spec: local index of the elder (first) child of a
coarse cell; `none` for a leaf or an unallocated index. -/
def vtkHyperTree.elderChildAt (t : vtkHyperTree) (i : Int) : Option Nat :=
  match t.cellAt i with
  | some (some e) => some e
  | _ => none

/-- Modelled from the spec: the Tree handle's child-local-index lookup
(`ChildLocalIndex(localIndex, ichild)`) per the elder-child layout; on a
cell without children the lookup is undefined by the spec and the model
returns the index unchanged. -/
def vtkHyperTree.childLocalIndex (t : vtkHyperTree) (i : Int) (ichild : Nat) : Int :=
  match t.elderChildAt i with
  | some e => Int.ofNat (e + ichild)
  | none => i

/-- Modelled from the spec: the Tree handle's subdivide operation. The leaf
at local index `i` becomes coarse, its elder child being the first freshly
allocated local index; exactly `branchingFactor` new cells are appended, all
leaves, with no global index registered yet. -/
def vtkHyperTree.subdivide (t : vtkHyperTree) (i : Int) : vtkHyperTree :=
  { t with
    cells := (t.cells.set i.toNat (some t.cells.length))
      ++ List.replicate t.branchingFactor none
    globalIndices := t.globalIndices
      ++ List.replicate t.branchingFactor (none : Option Int) }

/-- Modelled from the spec: the Grid contract (`vtkHyperTreeGrid` is not
under `src/`): a sparse array of tree handles addressable by tree position
(`none` marks an unallocated slot) plus the branching factor used when a
tree is created on demand. -/
structure vtkHyperTreeGrid where
  trees : List (Option vtkHyperTree)
  branchingFactor : Nat

/-- Modelled from the spec: the tree the Grid creates on demand, a single
root leaf with no global index assigned yet. -/
def vtkHyperTreeGrid.newTree (g : vtkHyperTreeGrid) : vtkHyperTree :=
  ⟨g.branchingFactor, [none], [none], 0⟩

/-- Modelled from the spec: `GetTree(treeIndex, create)` of the Grid
contract: absent when `treeIndex` is out of the grid's valid range, or when
the slot is unallocated and `create` is false; an unallocated slot with
`create` true yields a tree created on demand. -/
def vtkHyperTreeGrid.GetTree (g : vtkHyperTreeGrid) (treeIndex : Int)
    (create : Bool) : Option vtkHyperTree :=
  if treeIndex < 0 then none
  else
    match g.trees[treeIndex.toNat]? with
    | none => none
    | some none => if create then some g.newTree else none
    | some (some t) => some t

/-- Default constructor `vtkHyperTreeGridEntry()`: sets `Index = 0`. -/
def vtkHyperTreeGridEntry.mkDefault : vtkHyperTreeGridEntry := ⟨0⟩

/-- Constructor `vtkHyperTreeGridEntry(vtkIdType index)`: stores `index`. -/
def vtkHyperTreeGridEntry.mkIndex (index : Int) : vtkHyperTreeGridEntry :=
  ⟨index⟩

/-- Modelled from the spec: `Initialize(grid, treeIndex, create)` (body not
under `src/`): resets this entry's `Index` to the tree root (0) and returns
the tree handle resolved by the grid, absent on failure. -/
def vtkHyperTreeGridEntry.InitializeAtTree (_e : vtkHyperTreeGridEntry)
    (grid : vtkHyperTreeGrid) (treeIndex : Int) (create : Bool) :
    Option vtkHyperTree × vtkHyperTreeGridEntry :=
  (grid.GetTree treeIndex create, ⟨0⟩)

/-- `Initialize(vtkIdType index)` (inline in the header): directly sets the
cached `Index`, touching no tree. -/
def vtkHyperTreeGridEntry.InitializeIndex (_e : vtkHyperTreeGridEntry)
    (index : Int) : vtkHyperTreeGridEntry :=
  ⟨index⟩

/-- `Copy(const vtkHyperTreeGridEntry*)` (inline in the header): value-copies
the source entry's `Index`. -/
def vtkHyperTreeGridEntry.Copy (_e src : vtkHyperTreeGridEntry) :
    vtkHyperTreeGridEntry :=
  ⟨src.Index⟩

/-- `GetVertexId()` (inline in the header): returns `Index`. -/
def vtkHyperTreeGridEntry.GetVertexId (e : vtkHyperTreeGridEntry) : Int :=
  e.Index

/-- `IsRoot()` (inline in the header): `Index == 0`. -/
def vtkHyperTreeGridEntry.IsRoot (e : vtkHyperTreeGridEntry) : Bool :=
  e.Index == 0

/-- Modelled from the spec: `IsLeaf(tree)` (body not under `src/`) delegates
to the tree's per-local-index leaf flag. -/
def vtkHyperTreeGridEntry.IsLeaf (e : vtkHyperTreeGridEntry)
    (t : vtkHyperTree) : Bool :=
  t.isLeafAt e.Index

/-- Modelled from the spec: `GetGlobalNodeIndex(tree)` (body not under
`src/`) looks up the global index registered for the current cell. -/
def vtkHyperTreeGridEntry.GetGlobalNodeIndex (e : vtkHyperTreeGridEntry)
    (t : vtkHyperTree) : Option Int :=
  if e.Index < 0 then none else (t.globalIndices[e.Index.toNat]?).join

/-- Modelled from the spec: `SetGlobalIndexStart(tree, index)` (body not
under `src/`) assigns the root cell's global index, seeding the tree's
numbering. -/
def vtkHyperTreeGridEntry.SetGlobalIndexStart (_e : vtkHyperTreeGridEntry)
    (t : vtkHyperTree) (index : Int) : vtkHyperTree :=
  { t with
    globalIndexStart := index
    globalIndices := t.globalIndices.set 0 (some index) }

/-- Modelled from the spec: `SetGlobalIndexFromLocal(tree, index)` (body not
under `src/`) registers a global index for the current cell. -/
def vtkHyperTreeGridEntry.SetGlobalIndexFromLocal (e : vtkHyperTreeGridEntry)
    (t : vtkHyperTree) (index : Int) : vtkHyperTree :=
  if e.Index < 0 then t
  else { t with globalIndices := t.globalIndices.set e.Index.toNat (some index) }

/-- Modelled from the spec: `SubdivideLeaf(tree, level)` (body not under
`src/`): requires the current cell to be a leaf, in which case the tree
allocates `branchingFactor` children and marks the cell coarse; `level` is
passed through for depth-dependent allocation policies and is unused by
this tree model. -/
def vtkHyperTreeGridEntry.SubdivideLeaf (e : vtkHyperTreeGridEntry)
    (t : vtkHyperTree) (_level : Nat) : vtkHyperTree :=
  if e.IsLeaf t then t.subdivide e.Index else t

/-- Modelled from the spec: `IsTerminalNode(tree)` (body not under `src/`):
true exactly when the current cell is coarse and every direct child is a
leaf. -/
def vtkHyperTreeGridEntry.IsTerminalNode (e : vtkHyperTreeGridEntry)
    (t : vtkHyperTree) : Bool :=
  match t.elderChildAt e.Index with
  | some elder =>
      (List.range t.branchingFactor).all
        (fun c => t.isLeafAt (Int.ofNat (elder + c)))
  | none => false

/-- Modelled from the spec: `ToChild(tree, ichild)` (body not under `src/`):
advances `Index` to the `ichild`-th child's local index per the tree's
layout. -/
def vtkHyperTreeGridEntry.ToChild (e : vtkHyperTreeGridEntry)
    (t : vtkHyperTree) (ichild : Nat) : vtkHyperTreeGridEntry :=
  ⟨t.childLocalIndex e.Index ichild⟩

/-- Modelled from the spec: a tree before any global-index bookkeeping, a
single root leaf with branching factor `bf`. -/
def pristineTree (bf : Nat) : vtkHyperTree :=
  ⟨bf, [none], [none], 0⟩

/-- Modelled from the spec: the caller-side registration of freshly created
children after a subdivision. Children occupy local indices
`base, ..., base + count - 1`; each receives, via `SetGlobalIndexFromLocal`,
the global index `s + localIndex`, extending the numbering seeded at the
root (the contiguous instance of the spec's contiguous-or-mapped policy). -/
def registerChildren (s : Int) (base : Nat) :
    vtkHyperTree → Nat → vtkHyperTree
  | t, 0 => t
  | t, Nat.succ c =>
      (vtkHyperTreeGridEntry.mkIndex (Int.ofNat (base + c))).SetGlobalIndexFromLocal
        (registerChildren s base t c) (s + Int.ofNat (base + c))

/-- Modelled from the spec: one growth step of the traversal protocol — the
entry at local index `i` subdivides its leaf and the new children's global
indices are registered. -/
def subdivideAndRegister (t : vtkHyperTree) (i : Int) (lvl : Nat) :
    vtkHyperTree :=
  registerChildren t.globalIndexStart t.cells.length
    ((vtkHyperTreeGridEntry.mkIndex i).SubdivideLeaf t lvl) t.branchingFactor

/-- Modelled from the spec: tree states reachable by calling
`SetGlobalIndexStart` once at the root of a fresh tree and then performing
any number of `SubdivideLeaf` operations with their
`SetGlobalIndexFromLocal` registrations. -/
inductive ReachableTree (bf : Nat) (s : Int) : vtkHyperTree → Prop where
  | start :
      ReachableTree bf s
        (vtkHyperTreeGridEntry.mkDefault.SetGlobalIndexStart (pristineTree bf) s)
  | subdiv (t : vtkHyperTree) (i : Int) (lvl : Nat) :
      ReachableTree bf s t → t.isLeafAt i = true →
      ReachableTree bf s (subdivideAndRegister t i lvl)

/-- Invariant carried by every reachable tree state: global-index storage is
parallel to cell storage, the seed is `s`, and every registered global index
equals `s` plus the owning cell's local index. -/
def GlobalInv (s : Int) (t : vtkHyperTree) : Prop :=
  t.globalIndices.length = t.cells.length
  ∧ t.globalIndexStart = s
  ∧ ∀ k g, t.globalIndices[k]? = some (some g) → g = s + Int.ofNat k

/-- A concrete two-way tree: a coarse root whose two children (local indices
1 and 2) are leaves. Used to instantiate proved theorems. -/
def sampleTreeA : vtkHyperTree :=
  ⟨2, [some 1, none, none], [none, none, none], 0⟩

theorem setGlobalFromLocal_ofNat (n : Nat) (t : vtkHyperTree) (g : Int) :
    (vtkHyperTreeGridEntry.mkIndex (Int.ofNat n)).SetGlobalIndexFromLocal t g
      = { t with globalIndices := t.globalIndices.set n (some g) } := by
  have hn : ¬ (Int.ofNat n < 0) := Int.not_lt.mpr (Int.ofNat_nonneg n)
  simp [vtkHyperTreeGridEntry.SetGlobalIndexFromLocal, vtkHyperTreeGridEntry.mkIndex,
    hn, Int.toNat_ofNat]

theorem isLeafAt_facts {t : vtkHyperTree} {i : Int} (h : t.isLeafAt i = true) :
    0 ≤ i ∧ i.toNat < t.cells.length ∧ t.cells[i.toNat]? = some none := by
  unfold vtkHyperTree.isLeafAt vtkHyperTree.cellAt at h
  by_cases hneg : i < 0
  · rw [if_pos hneg] at h
    exact absurd h (by simp)
  · rw [if_neg hneg] at h
    refine ⟨by omega, ?_, ?_⟩
    · by_contra hge
      rw [List.getElem?_eq_none (by omega)] at h
      exact absurd h (by simp)
    · cases hcell : t.cells[i.toNat]? with
      | none => rw [hcell] at h; exact absurd h (by simp)
      | some v =>
          cases v with
          | none => rfl
          | some e => rw [hcell] at h; exact absurd h (by simp)

theorem subdivideLeaf_of_leaf {e : vtkHyperTreeGridEntry} {t : vtkHyperTree}
    {lvl : Nat} (h : e.IsLeaf t = true) :
    e.SubdivideLeaf t lvl = t.subdivide e.Index := by
  unfold vtkHyperTreeGridEntry.SubdivideLeaf
  rw [if_pos h]

theorem registerChildren_cells (s : Int) (base : Nat) (t : vtkHyperTree)
    (c : Nat) : (registerChildren s base t c).cells = t.cells := by
  induction c with
  | zero => rfl
  | succ c ih =>
      rw [registerChildren, setGlobalFromLocal_ofNat]
      exact ih

theorem registerChildren_branching (s : Int) (base : Nat) (t : vtkHyperTree)
    (c : Nat) :
    (registerChildren s base t c).branchingFactor = t.branchingFactor := by
  induction c with
  | zero => rfl
  | succ c ih =>
      rw [registerChildren, setGlobalFromLocal_ofNat]
      exact ih

theorem registerChildren_start (s : Int) (base : Nat) (t : vtkHyperTree)
    (c : Nat) :
    (registerChildren s base t c).globalIndexStart = t.globalIndexStart := by
  induction c with
  | zero => rfl
  | succ c ih =>
      rw [registerChildren, setGlobalFromLocal_ofNat]
      exact ih

theorem registerChildren_length (s : Int) (base : Nat) (t : vtkHyperTree)
    (c : Nat) :
    (registerChildren s base t c).globalIndices.length
      = t.globalIndices.length := by
  induction c with
  | zero => rfl
  | succ c ih =>
      rw [registerChildren, setGlobalFromLocal_ofNat]
      simpa using ih

theorem registerChildren_get_other (s : Int) (base : Nat) (t : vtkHyperTree)
    (c : Nat) (k : Nat) (h : k < base ∨ base + c ≤ k) :
    (registerChildren s base t c).globalIndices[k]?
      = t.globalIndices[k]? := by
  induction c with
  | zero => rfl
  | succ c ih =>
      rw [registerChildren, setGlobalFromLocal_ofNat]
      have hne : base + c ≠ k := by omega
      calc ((registerChildren s base t c).globalIndices.set (base + c)
              (some (s + Int.ofNat (base + c))))[k]?
          = (registerChildren s base t c).globalIndices[k]? :=
            List.getElem?_set_ne hne
        _ = t.globalIndices[k]? := ih (by omega)

theorem registerChildren_get_new (s : Int) (base : Nat) (t : vtkHyperTree) :
    ∀ (c m : Nat), m < c → base + c ≤ t.globalIndices.length →
      (registerChildren s base t c).globalIndices[base + m]?
        = some (some (s + Int.ofNat (base + m))) := by
  intro c
  induction c with
  | zero => intro m hm _; omega
  | succ c ih =>
      intro m hm hlen
      rw [registerChildren, setGlobalFromLocal_ofNat]
      by_cases hmc : m = c
      · have hlt : base + c < (registerChildren s base t c).globalIndices.length := by
          rw [registerChildren_length]; omega
        rw [hmc]
        simp [List.getElem?_set_self hlt]
      · have hne : base + c ≠ base + m := by omega
        rw [List.getElem?_set_ne hne]
        exact ih m (by omega) (by omega)

theorem subdivide_globalIndices (t : vtkHyperTree) (i : Int) :
    (t.subdivide i).globalIndices
      = t.globalIndices ++ List.replicate t.branchingFactor none := rfl

theorem reachable_inv {bf : Nat} {s : Int} {t : vtkHyperTree}
    (h : ReachableTree bf s t) : GlobalInv s t := by
  induction h with
  | start =>
      refine ⟨rfl, rfl, ?_⟩
      intro k g hk
      have hgi : (vtkHyperTreeGridEntry.mkDefault.SetGlobalIndexStart
          (pristineTree bf) s).globalIndices = [some s] := rfl
      rw [hgi] at hk
      cases k with
      | zero =>
          simp at hk
          simp [← hk]
      | succ k => simp at hk
  | subdiv t i lvl hre hleaf ih =>
      obtain ⟨hlen, hstart, hval⟩ := ih
      obtain ⟨hnn, hlt, hcell⟩ := isLeafAt_facts hleaf
      have hLeafE : (vtkHyperTreeGridEntry.mkIndex i).IsLeaf t = true := hleaf
      unfold subdivideAndRegister
      rw [subdivideLeaf_of_leaf hLeafE]
      simp only [vtkHyperTreeGridEntry.mkIndex]
      refine ⟨?_, ?_, ?_⟩
      · rw [registerChildren_length, registerChildren_cells]
        simp [vtkHyperTree.subdivide, hlen]
      · rw [registerChildren_start]
        simpa [vtkHyperTree.subdivide] using hstart
      · intro k g hk
        by_cases hk1 : k < t.cells.length
        · rw [registerChildren_get_other _ _ _ _ k (Or.inl hk1)] at hk
          rw [subdivide_globalIndices] at hk
          rw [List.getElem?_append_left (by omega)] at hk
          exact hval k g hk
        · by_cases hk2 : k < t.cells.length + t.branchingFactor
          · obtain ⟨m, hm, rfl⟩ :
                ∃ m, m < t.branchingFactor ∧ k = t.cells.length + m :=
              ⟨k - t.cells.length, by omega, by omega⟩
            rw [registerChildren_get_new t.globalIndexStart t.cells.length
              (t.subdivide i) t.branchingFactor m hm
              (by rw [subdivide_globalIndices]; simp; omega)] at hk
            simp only [Option.some.injEq] at hk
            rw [← hk, hstart]
          · rw [registerChildren_get_other _ _ _ _ k (Or.inr (by omega))] at hk
            rw [subdivide_globalIndices] at hk
            rw [List.getElem?_eq_none (by simp; omega)] at hk
            exact absurd hk (by simp)

/-- Claim C1: for every grid, tree index and create flag,
`Initialize(grid, treeIndex, create)` resets the entry's LocalIndex to 0 —
so `GetVertexId()` returns 0 and `IsRoot()` holds immediately afterwards —
and it returns the absent tree handle exactly when `treeIndex` is outside
the grid's valid range, or the addressed slot is unallocated and `create`
is false. -/
theorem initializeAtTree_root_and_failure (e : vtkHyperTreeGridEntry)
    (g : vtkHyperTreeGrid) (ti : Int) (create : Bool) :
    ((e.InitializeAtTree g ti create).2.GetVertexId = 0
      ∧ (e.InitializeAtTree g ti create).2.IsRoot = true)
    ∧ ((e.InitializeAtTree g ti create).1 = none
        ↔ ¬ (0 ≤ ti ∧ ti.toNat < g.trees.length)
          ∨ (g.trees[ti.toNat]? = some none ∧ create = false)) := by
  refine ⟨⟨rfl, rfl⟩, ?_⟩
  show g.GetTree ti create = none ↔ _
  unfold vtkHyperTreeGrid.GetTree
  by_cases hneg : ti < 0
  · have h0 : ¬ (0 ≤ ti ∧ ti.toNat < g.trees.length) := fun hh => by omega
    simp [hneg, h0]
  · have hpos : 0 ≤ ti := by omega
    rw [if_neg hneg]
    cases hslot : g.trees[ti.toNat]? with
    | none =>
        have hge : g.trees.length ≤ ti.toNat := List.getElem?_eq_none_iff.mp hslot
        have h0 : ¬ (0 ≤ ti ∧ ti.toNat < g.trees.length) := fun hh => by omega
        simp [hslot, h0]
    | some v =>
        have hlt : ti.toNat < g.trees.length := by
          by_contra hge
          rw [List.getElem?_eq_none (by omega)] at hslot
          exact Option.noConfusion hslot
        cases v with
        | none =>
            cases create with
            | false => simp [hslot, hpos, hlt]
            | true => simp [hslot, hpos, hlt]
        | some tr => simp [hslot, hpos, hlt]

/-- Claim C2: when the entry's current cell is coarse (it has an elder
child, hence is not a leaf) and `ichild` is below the tree's branching
factor, `ToChild` sets the entry's LocalIndex to exactly the tree layout's
child-local-index of the `ichild`-th child — the elder child's index plus
`ichild` — and the entry holds no other state that could change. -/
theorem toChild_advances_to_child (e : vtkHyperTreeGridEntry)
    (t : vtkHyperTree) (ichild elder : Nat)
    (hcoarse : t.elderChildAt e.Index = some elder)
    (_hch : ichild < t.branchingFactor) :
    (e.ToChild t ichild).Index = t.childLocalIndex e.Index ichild
    ∧ (e.ToChild t ichild).Index = Int.ofNat (elder + ichild) := by
  refine ⟨rfl, ?_⟩
  show t.childLocalIndex e.Index ichild = _
  unfold vtkHyperTree.childLocalIndex
  rw [hcoarse]

theorem toChild_advances_to_child_witness :
    ((vtkHyperTreeGridEntry.mkIndex 0).ToChild sampleTreeA 1).Index
        = sampleTreeA.childLocalIndex 0 1
    ∧ ((vtkHyperTreeGridEntry.mkIndex 0).ToChild sampleTreeA 1).Index
        = Int.ofNat (1 + 1) :=
  toChild_advances_to_child (vtkHyperTreeGridEntry.mkIndex 0) sampleTreeA 1 1
    (by decide) (by decide)

/-- Claim C3: subdividing a leaf converts the current cell to coarse
(`IsLeaf` becomes false), creates exactly the tree's branching-factor many
new cells, each initially reporting `IsLeaf() == true` when descended into,
and leaves the branching factor itself unchanged. -/
theorem subdivideLeaf_creates_children (e : vtkHyperTreeGridEntry)
    (t : vtkHyperTree) (lvl c : Nat)
    (hleaf : e.IsLeaf t = true) (hc : c < t.branchingFactor) :
    e.IsLeaf (e.SubdivideLeaf t lvl) = false
    ∧ (e.SubdivideLeaf t lvl).cells.length
        = t.cells.length + t.branchingFactor
    ∧ (e.ToChild (e.SubdivideLeaf t lvl) c).IsLeaf (e.SubdivideLeaf t lvl)
        = true
    ∧ (e.SubdivideLeaf t lvl).branchingFactor = t.branchingFactor := by
  obtain ⟨hnn, hlt, hcell⟩ := isLeafAt_facts hleaf
  rw [subdivideLeaf_of_leaf hleaf]
  have hcellAt : (t.subdivide e.Index).cellAt e.Index
      = some (some t.cells.length) := by
    unfold vtkHyperTree.cellAt vtkHyperTree.subdivide
    rw [if_neg (by omega)]
    rw [List.getElem?_append_left (by simp only [List.length_set]; omega)]
    exact List.getElem?_set_self (by omega)
  have hchild : (t.subdivide e.Index).cellAt (Int.ofNat (t.cells.length + c))
      = some none := by
    have hnn2 : ¬ (Int.ofNat (t.cells.length + c) < 0) := by
      rw [Int.not_lt]
      exact Int.ofNat_nonneg _
    unfold vtkHyperTree.cellAt vtkHyperTree.subdivide
    rw [if_neg hnn2]
    show (t.cells.set e.Index.toNat (some t.cells.length)
        ++ List.replicate t.branchingFactor none)[t.cells.length + c]?
      = some none
    rw [List.getElem?_append_right (by simp only [List.length_set]; omega)]
    simp only [List.length_set, Nat.add_sub_cancel_left]
    exact List.getElem?_replicate_of_lt hc
  refine ⟨?_, ?_, ?_, rfl⟩
  · simp [vtkHyperTreeGridEntry.IsLeaf, vtkHyperTree.isLeafAt, hcellAt]
  · simp [vtkHyperTree.subdivide]
  · simp only [vtkHyperTreeGridEntry.ToChild, vtkHyperTreeGridEntry.IsLeaf,
      vtkHyperTree.childLocalIndex, vtkHyperTree.elderChildAt,
      vtkHyperTree.isLeafAt, hcellAt, hchild]

theorem subdivideLeaf_creates_children_witness :
    vtkHyperTreeGridEntry.mkDefault.IsLeaf
        (vtkHyperTreeGridEntry.mkDefault.SubdivideLeaf (pristineTree 2) 0)
      = false
    ∧ (vtkHyperTreeGridEntry.mkDefault.SubdivideLeaf
        (pristineTree 2) 0).cells.length
      = (pristineTree 2).cells.length + (pristineTree 2).branchingFactor
    ∧ (vtkHyperTreeGridEntry.mkDefault.ToChild
          (vtkHyperTreeGridEntry.mkDefault.SubdivideLeaf (pristineTree 2) 0)
          1).IsLeaf
        (vtkHyperTreeGridEntry.mkDefault.SubdivideLeaf (pristineTree 2) 0)
      = true
    ∧ (vtkHyperTreeGridEntry.mkDefault.SubdivideLeaf
        (pristineTree 2) 0).branchingFactor
      = (pristineTree 2).branchingFactor :=
  subdivideLeaf_creates_children vtkHyperTreeGridEntry.mkDefault
    (pristineTree 2) 0 1 (by decide) (by decide)

/-- Claim C4: `IsTerminalNode(tree)` returns true if and only if the
current cell is coarse and every direct child given by the tree's layout is
a leaf; in particular it returns false whenever the current cell is a
leaf (and hence false for a coarse cell with any non-leaf child, by the
equivalence). -/
theorem isTerminalNode_iff_coarse_children_leaves (e : vtkHyperTreeGridEntry)
    (t : vtkHyperTree) :
    (e.IsTerminalNode t = true
      ↔ t.isCoarseAt e.Index = true
        ∧ ∀ c, c < t.branchingFactor →
            t.isLeafAt (t.childLocalIndex e.Index c) = true)
    ∧ (e.IsLeaf t = true → e.IsTerminalNode t = false) := by
  cases hcell : t.cellAt e.Index with
  | none =>
      constructor
      · simp [vtkHyperTreeGridEntry.IsTerminalNode, vtkHyperTree.isCoarseAt,
          vtkHyperTree.elderChildAt, hcell]
      · intro hlf
        simp [vtkHyperTreeGridEntry.IsTerminalNode,
          vtkHyperTree.elderChildAt, hcell]
  | some v =>
      cases v with
      | none =>
          constructor
          · simp [vtkHyperTreeGridEntry.IsTerminalNode,
              vtkHyperTree.isCoarseAt, vtkHyperTree.elderChildAt, hcell]
          · intro hlf
            simp [vtkHyperTreeGridEntry.IsTerminalNode,
              vtkHyperTree.elderChildAt, hcell]
      | some elder =>
          constructor
          · simp [vtkHyperTreeGridEntry.IsTerminalNode,
              vtkHyperTree.isCoarseAt, vtkHyperTree.elderChildAt,
              vtkHyperTree.childLocalIndex, hcell,
              List.all_eq_true, List.mem_range]
          · intro hlf
            rw [vtkHyperTreeGridEntry.IsLeaf, vtkHyperTree.isLeafAt,
              hcell] at hlf
            exact absurd hlf (by simp)

/-- Claim C5: in every tree state reachable by seeding the root's global
index once (`SetGlobalIndexStart`) and then performing any number of
`SubdivideLeaf` operations with their `SetGlobalIndexFromLocal` child
registrations, global indices registered for distinct cells are pairwise
distinct, and a further subdivision step never changes the global index
already registered for an allocated cell. -/
theorem globalIndex_unique_not_reassigned (bf : Nat) (s : Int)
    (t : vtkHyperTree) (i j : Nat) (gi gj : Int) (c : Int) (lvl : Nat)
    (k : Nat)
    (hreach : ReachableTree bf s t)
    (hi : t.globalIndices[i]? = some (some gi))
    (hj : t.globalIndices[j]? = some (some gj))
    (hij : i ≠ j)
    (hc : t.isLeafAt c = true)
    (hk : k < t.globalIndices.length) :
    gi ≠ gj
    ∧ (subdivideAndRegister t c lvl).globalIndices[k]?
        = t.globalIndices[k]? := by
  obtain ⟨hlen, hstart, hval⟩ := reachable_inv hreach
  constructor
  · have h1 := hval i gi hi
    have h2 := hval j gj hj
    intro hgg
    apply hij
    have h4 : Int.ofNat i = Int.ofNat j := by
      have h5 : s + Int.ofNat i = s + Int.ofNat j := by
        rw [← h1, ← h2, hgg]
      exact add_left_cancel h5
    exact Int.ofNat.inj h4
  · unfold subdivideAndRegister
    rw [subdivideLeaf_of_leaf
      (show (vtkHyperTreeGridEntry.mkIndex c).IsLeaf t = true from hc)]
    simp only [vtkHyperTreeGridEntry.mkIndex]
    rw [registerChildren_get_other _ _ _ _ k (Or.inl (by omega))]
    rw [subdivide_globalIndices]
    exact List.getElem?_append_left (by omega)

theorem globalIndex_unique_not_reassigned_witness :
    (5 : Int) ≠ 6
    ∧ (subdivideAndRegister
          (subdivideAndRegister
            (vtkHyperTreeGridEntry.mkDefault.SetGlobalIndexStart
              (pristineTree 2) 5) 0 0) 1 1).globalIndices[0]?
        = (subdivideAndRegister
            (vtkHyperTreeGridEntry.mkDefault.SetGlobalIndexStart
              (pristineTree 2) 5) 0 0).globalIndices[0]? :=
  globalIndex_unique_not_reassigned 2 5
    (subdivideAndRegister
      (vtkHyperTreeGridEntry.mkDefault.SetGlobalIndexStart
        (pristineTree 2) 5) 0 0) 0 1 5 6 1 1 0
    (ReachableTree.subdiv _ 0 0 ReachableTree.start (by decide))
    (by decide) (by decide) (by decide) (by decide) (by decide)

/-- Claim C6: after `b.Copy(&a)` the two entries agree on `GetVertexId`,
and the result is exactly the entry holding the source's `Index` — `Copy`
transfers the LocalIndex field only and, being a pure function of the
source, leaves the source entry unchanged. -/
theorem copy_matches_source (a b : vtkHyperTreeGridEntry) :
    (b.Copy a).GetVertexId = a.GetVertexId
    ∧ b.Copy a = vtkHyperTreeGridEntry.mkIndex a.Index :=
  ⟨rfl, rfl⟩

/-- Claim C7: `IsRoot()` returns true exactly when the entry's stored
LocalIndex equals 0; its signature takes no tree, so it consults nothing
else. -/
theorem isRoot_iff_localIndex_zero (e : vtkHyperTreeGridEntry) :
    e.IsRoot = true ↔ e.Index = 0 := by
  simp [vtkHyperTreeGridEntry.IsRoot]

/-- Claim C8: the one-argument `Initialize(index)` sets the stored
LocalIndex to exactly `index` for every `vtkIdType` value — afterwards
`GetVertexId()` returns it — and the result is fully determined by `index`
alone, touching no tree and no other state. -/
theorem initializeIndex_sets_index (e : vtkHyperTreeGridEntry) (i : Int) :
    (e.InitializeIndex i).Index = i
    ∧ (e.InitializeIndex i).GetVertexId = i
    ∧ e.InitializeIndex i = vtkHyperTreeGridEntry.mkIndex i :=
  ⟨rfl, rfl, rfl⟩

/-- Claim C9: `GetVertexId()` returns the entry's stored LocalIndex; as a
pure function it leaves the entry's state identical. -/
theorem getVertexId_returns_localIndex (e : vtkHyperTreeGridEntry) :
    e.GetVertexId = e.Index := rfl

/-- Claim C10: a default-constructed entry has LocalIndex 0 — so
`GetVertexId()` returns 0 and `IsRoot()` holds with no `Initialize` call —
and the one-argument constructor stores its argument unchanged for every
`vtkIdType` value. -/
theorem constructors_store_index :
    vtkHyperTreeGridEntry.mkDefault.Index = 0
    ∧ vtkHyperTreeGridEntry.mkDefault.GetVertexId = 0
    ∧ vtkHyperTreeGridEntry.mkDefault.IsRoot = true
    ∧ ∀ i : Int, (vtkHyperTreeGridEntry.mkIndex i).Index = i :=
  ⟨rfl, rfl, by decide, fun _ => rfl⟩
